import Mathlib

/-!
Verification of the `supertonic` real-time TTS server (`src/real-time/server.js`)
against its natural-language specification.

The JavaScript source is shallowly embedded: pure functions become Lean
functions, the stateful streaming orchestrator becomes explicit state passing
over a fold, and byte buffers become `List ℕ` (each entry a byte value).
Floating-point sample values and durations are modelled as rationals; at every
concrete input used in a theorem below the JavaScript double computations are
exact, so the rational model agrees with the runtime values.
-/

namespace Supertonic

/-! ## Waveform container encoder (`audioToWavBuffer`, server.js lines 198-234) -/

/-- `Math.max(-1, Math.min(1, sample))` from line 228. -/
def jsClamp (s : ℚ) : ℚ := max (-1) (min 1 s)

/-- `Math.floor(sample * 32767)` applied to the clamped sample (lines 228-229).
The source floors (rounds toward negative infinity); it does not round to
nearest. -/
def sampleToInt (s : ℚ) : ℤ := Int.floor (jsClamp s * 32767)

/-- `buffer.writeInt16LE(v, …)`: little-endian two's-complement encoding of a
16-bit signed value (the encoder only ever passes values in [-32767, 32767]). -/
def int16le (v : ℤ) : List ℕ :=
  let u : ℕ := (v % 65536).toNat
  [u % 256, u / 256]

/-- `buffer.writeUInt32LE(v, …)`: little-endian 32-bit unsigned encoding. -/
def u32le (v : ℕ) : List ℕ :=
  [v % 256, v / 256 % 256, v / 65536 % 256, v / 16777216 % 256]

/-- `buffer.writeUInt16LE(v, …)`: little-endian 16-bit unsigned encoding. -/
def u16le (v : ℕ) : List ℕ :=
  [v % 256, v / 256 % 256]

/-- Bytes 0-39 of the WAV header written at lines 207-223: `'RIFF'`,
RIFF size `36 + dataSize`, `'WAVE'`, `'fmt '`, fmt-chunk size 16, PCM tag 1,
`numChannels = 1`, sample rate, `byteRate = sampleRate * numChannels * 16 / 8`,
`blockAlign = numChannels * 16 / 8`, `bitsPerSample = 16`, `'data'`.
The string writes are their ASCII byte values. -/
def wavHeaderBytes (dataSize sampleRate : ℕ) : List ℕ :=
  [82, 73, 70, 70] ++ u32le (36 + dataSize) ++ [87, 65, 86, 69]
    ++ [102, 109, 116, 32] ++ u32le 16 ++ u16le 1 ++ u16le 1
    ++ u32le sampleRate ++ u32le (sampleRate * 1 * 16 / 8) ++ u16le (1 * 16 / 8)
    ++ u16le 16 ++ [100, 97, 116, 97]

/-- `audioToWavBuffer(audioData, sampleRate)` (lines 198-234): the 40 header
bytes, then the `data` chunk size field at bytes 40-43
(`dataSize = audioData.length * bitsPerSample / 8`), then each sample clamped,
scaled by 32767, floored and written as a little-endian 16-bit value. -/
def audioToWavBuffer (audioData : List ℚ) (sampleRate : ℕ) : List ℕ :=
  wavHeaderBytes (audioData.length * 16 / 8) sampleRate
    ++ u32le (audioData.length * 16 / 8)
    ++ audioData.flatMap (fun s => int16le (sampleToInt s))

/-- Reads back the 16-bit signed little-endian value stored at byte offset
`off` of a buffer (conceptual decoder used to state what the encoder wrote). -/
def int16FieldAt (b : List ℕ) (off : ℕ) : ℤ :=
  ((b.getD off 0 + 256 * b.getD (off + 1) 0 : ℕ) : ℤ)
    - (if 32768 ≤ b.getD off 0 + 256 * b.getD (off + 1) 0 then 65536 else 0)

/-- Reads back the 32-bit unsigned little-endian `data`-chunk size field at
bytes 40-43 of a WAV buffer. -/
def dataSizeField (b : List ℕ) : ℕ :=
  b.getD 40 0 + 256 * b.getD 41 0 + 65536 * b.getD 42 0
    + 16777216 * b.getD 43 0

/-! ## Transport events

Both transports serialize self-describing tagged JSON objects; each JSON shape
that occurs in the source is one constructor.  The SSE batch path sends a
`chunk` metadata object without audio data followed by an `audio` object
(`chunkMeta`/`audioIdx`), while the WebSocket synthesize path sends one
`chunk` object that carries the data inline (`chunkData`); the conversational
path sends `audio` objects keyed by text (`audioText`).  The base64 encoding
of buffers is injective framing, so events carry the raw WAV bytes. -/

inductive Ev where
  | start (totalChunks : ℕ)
  | chunkMeta (chunkIndex totalChunks : ℕ) (duration : ℚ) (sampleRate : ℕ)
  | audioIdx (chunkIndex : ℕ) (data : List ℕ)
  | chunkData (chunkIndex totalChunks : ℕ) (duration : ℚ) (sampleRate : ℕ)
      (data : List ℕ)
  | silence (duration : ℚ) (data : List ℕ)
  | error (message : String) (chunkIndex : Option ℕ)
  | endEv (totalDuration : Option ℚ) (totalChunks : Option ℕ)
  | textChunk (text fullText : String)
  | audioText (text : String) (duration : ℚ) (sampleRate : ℕ) (data : List ℕ)
  | conversationStart (conversationId : String)
  | conversationEnd (fullResponse : String)
deriving DecidableEq, Repr

/-- The external engine `textToSpeech._infer([phrase], style, steps, speed)`
for a fixed style/steps/speed: per phrase either a waveform plus duration, or
a thrown error carrying a message. -/
abbrev TtsFun := String → Except String (List ℚ × ℚ)

/-- `Math.floor(textToSpeech.sampleRate * duration)` (line 259): the length to
which the returned waveform is truncated before encoding. -/
def wavLenOf (sr : ℕ) (dur : ℚ) : ℕ := (Int.floor ((sr : ℚ) * dur)).toNat

/-- `audioToWavBuffer(result.wav.slice(0, wavLen), sampleRate)`. -/
def synthBytes (sr : ℕ) (wav : List ℚ) (dur : ℚ) : List ℕ :=
  audioToWavBuffer (wav.take (wavLenOf sr dur)) sr

/-- The 0.3 s silence buffer of lines 291-299: `Math.floor(0.3 * sampleRate)`
zero samples, encoded like ordinary audio. -/
def silenceBytes (sr : ℕ) : List ℕ :=
  audioToWavBuffer (List.replicate (wavLenOf sr (3/10)) 0) sr

/-! ## Batch mode: `streamAudioChunks` (SSE, lines 239-334) and the WebSocket
`synthesize` handler (lines 1119-1185).

Both paths first run `chunkText(text, 0)`; the loops below are parametrized by
that common chunk list, so comparing them as functions of `chunks` compares
them as functions of the request text.  On a per-chunk engine failure both
loops emit an `error` event tagged `chunkIndex: i + 1` and `break`, then still
emit the final `end` event. -/

def sseBatchLoop (tts : TtsFun) (sr total : ℕ) :
    List String → ℕ → ℚ → ℕ → List Ev
  | [], _, totalDuration, chunkCount =>
      [Ev.endEv (some totalDuration) (some chunkCount)]
  | c :: rest, i, totalDuration, chunkCount =>
      match tts c with
      | .error e =>
          [Ev.error e (some (i + 1)),
           Ev.endEv (some totalDuration) (some chunkCount)]
      | .ok (wav, dur) =>
          Ev.chunkMeta (i + 1) total dur sr
            :: Ev.audioIdx (i + 1) (synthBytes sr wav dur)
            :: (if rest.isEmpty then
                  sseBatchLoop tts sr total rest (i + 1)
                    (totalDuration + dur) (chunkCount + 1)
                else
                  Ev.silence (3/10) (silenceBytes sr)
                    :: sseBatchLoop tts sr total rest (i + 1)
                        (totalDuration + dur + 3/10) (chunkCount + 1))

/-- `streamAudioChunks` events: `start {totalChunks}` then the per-chunk loop
(`totalDuration`/`chunkIndex` accumulators start at 0). -/
def streamAudioChunks (tts : TtsFun) (sr : ℕ) (chunks : List String) : List Ev :=
  Ev.start chunks.length :: sseBatchLoop tts sr chunks.length chunks 0 0 0

/-- WebSocket synthesize per-chunk loop (lines 1123-1183): a single `chunk`
event carries the audio data; the trailing `end` event (line 1185) has no
`totalDuration`/`totalChunks` fields. -/
def wsSynthLoop (tts : TtsFun) (sr total : ℕ) : List String → ℕ → List Ev
  | [], _ => [Ev.endEv none none]
  | c :: rest, i =>
      match tts c with
      | .error e => [Ev.error e (some (i + 1)), Ev.endEv none none]
      | .ok (wav, dur) =>
          Ev.chunkData (i + 1) total dur sr (synthBytes sr wav dur)
            :: (if rest.isEmpty then
                  wsSynthLoop tts sr total rest (i + 1)
                else
                  Ev.silence (3/10) (silenceBytes sr)
                    :: wsSynthLoop tts sr total rest (i + 1))

def wsSynthesize (tts : TtsFun) (sr : ℕ) (chunks : List String) : List Ev :=
  Ev.start chunks.length :: wsSynthLoop tts sr chunks.length chunks 0

/-- The framing translation from the SSE batch event stream to the WebSocket
one: each per-phrase `chunk`-metadata/`audio` pair becomes one `chunk` event
carrying the data, and the `end` event loses its `totalDuration`/`totalChunks`
fields; all other events pass through unchanged. -/
def mergeForWs : List Ev → List Ev
  | Ev.chunkMeta i t d sr :: Ev.audioIdx _ dat :: rest =>
      Ev.chunkData i t d sr dat :: mergeForWs rest
  | Ev.endEv _ _ :: rest => Ev.endEv none none :: mergeForWs rest
  | e :: rest => e :: mergeForWs rest
  | [] => []

/-- A never-failing engine, used to state all-success properties without a
side condition. -/
def liftTts (t : String → List ℚ × ℚ) : TtsFun := fun c => .ok (t c)

def sumDurations (t : String → List ℚ × ℚ) (chunks : List String) : ℚ :=
  (chunks.map (fun c => (t c).2)).sum

/-- Spec-side shape of the successful SSE batch body (claim C7): per phrase a
`chunk`/`audio` pair, with one 0.3 s `silence` event between consecutive
phrases and none after the last. -/
def c7Body (t : String → List ℚ × ℚ) (sr total : ℕ) :
    List String → ℕ → List Ev
  | [], _ => []
  | [c], i =>
      [Ev.chunkMeta (i + 1) total (t c).2 sr,
       Ev.audioIdx (i + 1) (synthBytes sr (t c).1 (t c).2)]
  | c :: c2 :: rest, i =>
      Ev.chunkMeta (i + 1) total (t c).2 sr
        :: Ev.audioIdx (i + 1) (synthBytes sr (t c).1 (t c).2)
        :: Ev.silence (3/10) (silenceBytes sr)
        :: c7Body t sr total (c2 :: rest) (i + 1)

/-- Spec-side shape of the successful WebSocket synthesize body: data-carrying
`chunk` events with one `silence` between consecutive phrases. -/
def c7WsBody (t : String → List ℚ × ℚ) (sr total : ℕ) :
    List String → ℕ → List Ev
  | [], _ => []
  | [c], i =>
      [Ev.chunkData (i + 1) total (t c).2 sr (synthBytes sr (t c).1 (t c).2)]
  | c :: c2 :: rest, i =>
      Ev.chunkData (i + 1) total (t c).2 sr (synthBytes sr (t c).1 (t c).2)
        :: Ev.silence (3/10) (silenceBytes sr)
        :: c7WsBody t sr total (c2 :: rest) (i + 1)

def isSilenceEv : Ev → Bool
  | Ev.silence _ _ => true
  | _ => false

def silenceCountEv (evs : List Ev) : ℕ := (evs.filter isSilenceEv).length

/-- Concrete always-succeeding engine used by witnesses/counterexamples. -/
def okTts : TtsFun := fun _ => .ok ([0], 1)

/-- Concrete engine failing exactly on the phrase `"a"`. -/
def c2Tts : TtsFun := fun s => if s = "a" then .error "boom" else .ok ([0], 1)

/-! ## Conversational mode: `streamOllamaToSpeech` (lines 339-621)

String primitives are modelled over `String.data : List Char`; all inputs in
the theorems below are ASCII, where the JavaScript UTF-16 index arithmetic
coincides with character indexing. -/

/-- JS `\s` on the ASCII range (the only characters reaching the model). -/
def isJsWs (c : Char) : Bool :=
  c == ' ' || c == '\t' || c == '\n' || c == '\r'

/-- Length of the leading whitespace run (the greedy `\s+` of the boundary
regexps). -/
def wsRunLen : List Char → ℕ
  | [] => 0
  | c :: cs => if isJsWs c then wsRunLen cs + 1 else 0

/-- First match of a `/[…]\s+/` regexp over the characters: the first index
whose character satisfies `p` and is followed by at least one whitespace
character; returns the match index and the match length (the punctuation
character plus the greedy whitespace run). -/
def findBoundaryAux (p : Char → Bool) : List Char → ℕ → Option (ℕ × ℕ)
  | [], _ => none
  | c :: cs, i =>
      if p c ∧ 0 < wsRunLen cs then some (i, 1 + wsRunLen cs)
      else findBoundaryAux p cs (i + 1)

def lastSpaceAux : List Char → ℕ → ℤ → ℤ
  | [], _, acc => acc
  | c :: cs, i, acc =>
      lastSpaceAux cs (i + 1) (if c == ' ' then (i : ℤ) else acc)

/-- JS `str.lastIndexOf(' ')` (−1 when absent). -/
def jsLastIndexOfSpace (s : String) : ℤ := lastSpaceAux s.data 0 (-1)

/-- JS `str.lastIndexOf(' ', fromIndex)`: the last space at index ≤ `fromIndex`. -/
def jsLastIndexOfSpaceFrom (s : String) (fromIdx : ℕ) : ℤ :=
  lastSpaceAux (s.data.take (fromIdx + 1)) 0 (-1)

/-- `replace(/^\s+/, '')` (line 521). -/
def stripLeadingWs (s : String) : String := String.mk (s.data.dropWhile isJsWs)

/-- `replace(/\s+$/, ' ')` (line 522): a non-empty trailing whitespace run is
replaced by a single space; otherwise the string is unchanged. -/
def collapseTrailingWs (s : String) : String :=
  if (s.data.reverse.takeWhile isJsWs).isEmpty then s
  else String.mk ((s.data.reverse.dropWhile isJsWs).reverse ++ [' '])

/-- JS `String.prototype.trim` on ASCII whitespace. -/
def jsTrim (s : String) : String :=
  String.mk (((s.data.dropWhile isJsWs).reverse.dropWhile isJsWs).reverse)

/-- JS `substring(0, n)` for the ASCII strings involved. -/
def strTake (s : String) (n : ℕ) : String := String.mk (s.data.take n)

/-- JS `substring(n)`. -/
def strDrop (s : String) (n : ℕ) : String := String.mk (s.data.drop n)

def minPhraseLength : ℕ := 15

def maxPhraseLength : ℕ := 80

/-- Models line 454, `[...currentSentence.matchAll(sentenceEndings)]`, where
`sentenceEndings = /[.!?](?:\s+|$)/` carries no `g` flag.  Per ECMA-262,
`String.prototype.matchAll` throws a `TypeError` when its argument is a
regular expression without the global flag, so this call throws on every
content-bearing line; the enclosing `catch (parseError) { continue; }`
(line 605) swallows the exception.  The `Except.error` value is that thrown
`TypeError`. -/
def matchAllSentenceEndings (_cur : String) : Except String (List (ℕ × ℕ)) :=
  .error "TypeError: String.prototype.matchAll called with a non-global RegExp argument"

/-- Lines 450-516 following the `matchAll` call: the priority cascade
computing `(shouldGenerate, phraseEnd)` — sentence endings (last match), then
`/[;:]\s+/` past `15 * 0.7`, then the last space once the buffer reaches 15
and the space sits at ≥ `15 * 0.8`, then `/,\s+/` past `15 * 1.3` once the
buffer reaches 30, then the forced cut at 80.  The threshold products are
exact in double precision, so the rational comparisons agree with the
JavaScript ones.  (Unreachable in the source, because `matchAll` throws
first; carried over in full.) -/
def runCascade (cur : String) (sentenceMatches : List (ℕ × ℕ)) : Bool × ℤ :=
  let s1 : Bool × ℤ :=
    match sentenceMatches.getLast? with
    | some (idx, len) => (true, (idx : ℤ) + len)
    | none => (false, -1)
  let s2 : Bool × ℤ :=
    if s1.1 then s1 else
      match findBoundaryAux (fun c => c == ';' || c == ':') cur.data 0 with
      | some (idx, len) =>
          (decide ((minPhraseLength : ℚ) * (7/10) ≤ (((idx : ℤ) + len : ℤ) : ℚ)),
           (idx : ℤ) + len)
      | none => s1
  let s3 : Bool × ℤ :=
    if s2.1 then s2 else
      if minPhraseLength ≤ cur.length then
        if (minPhraseLength : ℚ) * (8/10) ≤ ((jsLastIndexOfSpace cur : ℤ) : ℚ) then
          (true, jsLastIndexOfSpace cur)
        else s2
      else s2
  let s4 : Bool × ℤ :=
    if s3.1 then s3 else
      if minPhraseLength * 2 ≤ cur.length then
        match findBoundaryAux (fun c => c == ',') cur.data 0 with
        | some (idx, len) =>
            (decide ((minPhraseLength : ℚ) * (13/10) ≤ (((idx : ℤ) + len : ℤ) : ℚ)),
             (idx : ℤ) + len)
        | none => s3
      else s3
  let s5 : Bool × ℤ :=
    if s4.1 then s4 else
      if maxPhraseLength ≤ cur.length then
        if (minPhraseLength : ℤ) ≤ jsLastIndexOfSpaceFrom cur maxPhraseLength then
          (true, jsLastIndexOfSpaceFrom cur maxPhraseLength)
        else if (maxPhraseLength : ℚ) * (13/10) ≤ (cur.length : ℚ) then
          (true, (maxPhraseLength : ℤ))
        else s4
      else s4
  s5

/-- The whole phrase-boundary detection step on the updated buffer:
`matchAll` (which throws) bound into the cascade. -/
def detectPhraseEnd (cur : String) : Except String (Bool × ℤ) :=
  (matchAllSentenceEndings cur).map (runCascade cur)

structure Message where
  role : String
  content : String
deriving DecidableEq, Repr

/-- The in-memory `conversations` map (line 168), as an association list. -/
abbrev AList := List (String × List Message)

def lookupStore : AList → String → Option (List Message)
  | [], _ => none
  | (k, v) :: rest, i => if k = i then some v else lookupStore rest i

def setStore : AList → String → List Message → AList
  | [], i, v => [(i, v)]
  | (k, w) :: rest, i, v =>
      if k = i then (i, v) :: rest else (k, w) :: setStore rest i v

/-- `GET /conversation/:conversationId` (lines 1061-1065): the stored message
list, `[]` for an unknown id. -/
def getConversation (store : AList) (i : String) : List Message :=
  (lookupStore store i).getD []

/-- One parsed NDJSON line from the chat backend: `data.message.content` when
present, plus the `done` flag.  Malformed lines hit the `catch { continue }`
and contribute nothing, so they are omitted from the fragment list. -/
structure Fragment where
  message : Option String
  done : Bool
deriving DecidableEq, Repr

/-- The mutable locals of one `streamOllamaToSpeech` turn together with the
shared `conversations` map.  `aliased` records whether the local `messages`
array is the very array stored in the map — then each `messages.push` is
immediately visible in the map, which happens exactly when
`conversations.get(conversationId)` returned it (line 350) or after
`conversations.set(conversationId, messages)` ran (line 596). -/
structure ConvState where
  fullResponse : String
  currentSentence : String
  messages : List Message
  store : AList
  aliased : Bool
deriving DecidableEq, Repr

/-- `messages.push(m)`, with the write-through visible in the map when the
array is aliased. -/
def pushMessage (i : String) (st : ConvState) (m : Message) : ConvState :=
  { st with
    messages := st.messages ++ [m],
    store :=
      if st.aliased then setStore st.store i (st.messages ++ [m]) else st.store }

/-- Lines 561-604, the `data.done` branch: synthesize the remaining
`currentSentence.trim()` if non-empty (a TTS failure there is only logged,
no event), push the assistant message, `conversations.set(conversationId,
messages)` — after which the local array is the stored one — and emit
`conversation_end`.  The source does not reset `currentSentence` here. -/
def processDone (tts : TtsFun) (sr : ℕ) (i : String) (st : ConvState) :
    ConvState × List Ev :=
  let flushEvs : List Ev :=
    if jsTrim st.currentSentence ≠ "" then
      match tts (jsTrim st.currentSentence) with
      | .ok (wav, dur) =>
          [Ev.audioText (jsTrim st.currentSentence) dur sr (synthBytes sr wav dur)]
      | .error _ => []
    else []
  let st1 := pushMessage i st ⟨"assistant", st.fullResponse⟩
  let st2 := { st1 with store := setStore st1.store i st1.messages, aliased := true }
  (st2, flushEvs ++ [Ev.conversationEnd st.fullResponse])

/-- Lines 423-608, processing of one parsed line.  A fragment with truthy
(non-empty) content appends to `fullResponse`/`currentSentence`, emits
`text_chunk`, and then runs phrase detection, whose `matchAll` throws: the
per-line `catch` swallows the `TypeError`, so for such lines the cut
(lines 518-556) and the `data.done` check (line 561) are never reached.  The
cut and synthesis logic is nevertheless modelled in full below the
`detectPhraseEnd` match. -/
def processFragment (tts : TtsFun) (sr : ℕ) (i : String) (st : ConvState)
    (f : Fragment) : ConvState × List Ev :=
  match f.message with
  | some c =>
      if c ≠ "" then
        let st1 := { st with
          fullResponse := st.fullResponse ++ c,
          currentSentence := st.currentSentence ++ c }
        let tc := Ev.textChunk c st1.fullResponse
        match detectPhraseEnd st1.currentSentence with
        | .error _ => (st1, [tc])
        | .ok (sg, pe) =>
            let r2 : ConvState × List Ev :=
              if sg ∧ 0 < pe then
                let completePhrase :=
                  collapseTrailingWs
                    (stripLeadingWs (strTake st1.currentSentence pe.toNat))
                let st' := { st1 with
                  currentSentence := strDrop st1.currentSentence pe.toNat }
                if completePhrase ≠ "" then
                  match tts completePhrase with
                  | .ok (wav, dur) =>
                      (st', [Ev.audioText completePhrase dur sr
                        (synthBytes sr wav dur)])
                  | .error _ => (st', [])
                else (st', [])
              else (st1, [])
            if f.done then
              let r3 := processDone tts sr i r2.1
              (r3.1, tc :: r2.2 ++ r3.2)
            else (r2.1, tc :: r2.2)
      else if f.done then processDone tts sr i st
      else (st, [])
  | none =>
      if f.done then processDone tts sr i st
      else (st, [])

/-- The `for await` loop over parsed lines. -/
def processFragments (tts : TtsFun) (sr : ℕ) (i : String) :
    ConvState → List Fragment → ConvState × List Ev
  | st, [] => (st, [])
  | st, f :: fs =>
      let r1 := processFragment tts sr i st f
      let r2 := processFragments tts sr i r1.1 fs
      (r2.1, r1.2 ++ r2.2)

/-- The chat backend as observed by one turn: the liveness check fails
(lines 377-391), or the chat call fails (its thrown message reaches the outer
catch, lines 404-409 and 611-618), or it streams a list of parsed lines. -/
inductive Upstream where
  | ollamaDown
  | chatError (msg : String)
  | stream (fragments : List Fragment)
deriving DecidableEq, Repr

structure ConvResult where
  events : List Ev
  store : AList
deriving DecidableEq, Repr

/-- Opening line of the default system prompt (line 151); the elided tail of
the constant influences no claim (only the `system` role matters). -/
def DEFAULT_SYSTEM_PROMPT : String :=
  "You are a friendly, helpful AI assistant with the ability to speak and hear."

/-- The fixed operator-actionable message of lines 383-388, with the default
`OLLAMA_BASE_URL`. -/
def OLLAMA_DOWN_MSG : String :=
  "Ollama is not running! Please start Ollama: ollama serve (URL: http://localhost:11435)"

/-- `streamOllamaToSpeech` (lines 339-621): read (or default) the history,
inject the system prompt when the history is empty, push the user message
(write-through when the array came from the map), emit `conversation_start`,
then either report the upstream failure as a single `error` event or fold the
fragment processing over the stream.  `systemPrompt` truthiness is
non-emptiness. -/
def streamOllamaToSpeech (userMessage conversationId systemPrompt : String)
    (tts : TtsFun) (sr : ℕ) (store : AList) (up : Upstream) : ConvResult :=
  let existing := lookupStore store conversationId
  let messages0 := existing.getD []
  let aliased := existing.isSome
  let promptToUse :=
    if systemPrompt ≠ "" then systemPrompt else DEFAULT_SYSTEM_PROMPT
  let msgs1 :=
    (if messages0.isEmpty then [Message.mk "system" promptToUse] else messages0)
      ++ [Message.mk "user" userMessage]
  let store1 := if aliased then setStore store conversationId msgs1 else store
  let startEv := Ev.conversationStart conversationId
  match up with
  | .ollamaDown => ⟨[startEv, Ev.error OLLAMA_DOWN_MSG none], store1⟩
  | .chatError msg => ⟨[startEv, Ev.error msg none], store1⟩
  | .stream frags =>
      let r := processFragments tts sr conversationId
        ⟨"", "", msgs1, store1, aliased⟩ frags
      ⟨startEv :: r.2, r.1.store⟩

/-- A content-only fragment (a line with `message.content` and no `done`). -/
def contentFrag (c : String) : Fragment := ⟨some c, false⟩

/-- A pure completion marker (`done: true` with no content), the shape of the
final line of a typical backend stream. -/
def doneFrag : Fragment := ⟨none, true⟩

/-- `f.done && (content absent or empty)`: exactly the fragments whose
processing reaches the `data.done` branch (a content-bearing `done` line dies
in the swallowed `matchAll` exception first). -/
def reachesDone (f : Fragment) : Bool :=
  f.done && (match f.message with | some c => decide (c = "") | none => true)

/-- A stub engine that always succeeds (waveform content is irrelevant). -/
def stubTts : TtsFun := fun _ => .ok ([], 1)

/-- Fresh-state run of the conversational loop over content-only feeds: the
observable behaviour of the incremental boundary detector on `feed` calls. -/
def detectorRun (feeds : List String) : ConvState × List Ev :=
  processFragments stubTts 100 "session" ⟨"", "", [], [], false⟩
    (feeds.map contentFrag)

def singleCharFeeds (s : String) : List String :=
  s.data.map (fun c => String.mk [c])

/-- The texts of the emitted `audio` events: the phrases actually cut and
synthesized. -/
def audioTexts : List Ev → List String
  | [] => []
  | Ev.audioText t _ _ _ :: rest => t :: audioTexts rest
  | _ :: rest => audioTexts rest

/-- 85 characters whose only space is at position 40 (40 `a`s, one space,
44 `b`s): the run-on input of claim C6. -/
def text85 : String :=
  String.mk (List.replicate 40 'a' ++ [' '] ++ List.replicate 44 'b')

/-- The claim C3 scenario: `POST /conversation {message:"Hi",
conversationId:"t1"}` (no custom system prompt) against the stub backend
streaming `{message:{content:"Hello"}}` then
`{message:{content:" there."}, done:true}`, from an empty store. -/
def c3Run : ConvResult :=
  streamOllamaToSpeech "Hi" "t1" "" stubTts 100 []
    (.stream [⟨some "Hello", false⟩, ⟨some " there.", true⟩])

theorem wavHeaderBytes_length (dataSize sampleRate : ℕ) :
    (wavHeaderBytes dataSize sampleRate).length = 40 := rfl

theorem int16le_length (v : ℤ) : (int16le v).length = 2 := rfl

theorem sample_flatMap_length (l : List ℚ) :
    (l.flatMap (fun s => int16le (sampleToInt s))).length = 2 * l.length := by
  induction l with
  | nil => rfl
  | cons s rest ih =>
      rw [List.flatMap_cons, List.length_append, int16le_length, ih,
        List.length_cons]
      ring

theorem u32le_decode (v : ℕ) (hv : v < 4294967296) :
    (u32le v).getD 0 0 + 256 * (u32le v).getD 1 0
      + 65536 * (u32le v).getD 2 0 + 16777216 * (u32le v).getD 3 0 = v := by
  show v % 256 + 256 * (v / 256 % 256) + 65536 * (v / 65536 % 256)
      + 16777216 * (v / 16777216 % 256) = v
  omega

theorem u32le_length (v : ℕ) : (u32le v).length = 4 := rfl

theorem int16le_decode (v : ℤ) (hlo : -32768 ≤ v) (hhi : v < 32768) :
    int16FieldAt (int16le v) 0 = v := by
  unfold int16FieldAt int16le
  show (((v % 65536).toNat % 256 + 256 * ((v % 65536).toNat / 256) : ℕ) : ℤ)
      - (if 32768 ≤ ((v % 65536).toNat % 256 + 256 * ((v % 65536).toNat / 256) : ℕ)
         then 65536 else 0) = v
  have hu : ((v % 65536).toNat % 256 + 256 * ((v % 65536).toNat / 256) : ℕ)
      = (v % 65536).toNat := by omega
  rw [hu]
  split <;> omega

theorem sampleToInt_bounds (s : ℚ) :
    -32767 ≤ sampleToInt s ∧ sampleToInt s ≤ 32767 := by
  unfold sampleToInt jsClamp
  have h1 : (-1 : ℚ) ≤ max (-1) (min 1 s) := le_max_left _ _
  have h2 : max (-1) (min 1 s) ≤ 1 :=
    max_le (by norm_num) (min_le_left _ _)
  constructor
  · rw [Int.le_floor]
    push_cast
    nlinarith
  · have hle : max (-1) (min 1 s) * 32767 ≤ ((32767 : ℤ) : ℚ) := by
      push_cast
      nlinarith
    calc Int.floor (max (-1) (min 1 s) * 32767)
        ≤ Int.floor ((32767 : ℤ) : ℚ) := Int.floor_le_floor hle
      _ = 32767 := Int.floor_intCast _

theorem audioToWavBuffer_getD_dataSize (audioData : List ℚ) (sr k : ℕ)
    (hk : k < 4) :
    (audioToWavBuffer audioData sr).getD (40 + k) 0
      = (u32le (audioData.length * 16 / 8)).getD k 0 := by
  unfold audioToWavBuffer
  rw [List.append_assoc,
    List.getD_append_right _ _ _ _ (by rw [wavHeaderBytes_length]; omega),
    wavHeaderBytes_length, Nat.add_sub_cancel_left,
    List.getD_append _ _ _ _ (by rw [u32le_length]; omega)]

theorem dataSizeField_audioToWavBuffer (audioData : List ℚ) (sr : ℕ)
    (h : audioData.length * 16 / 8 < 4294967296) :
    dataSizeField (audioToWavBuffer audioData sr)
      = audioData.length * 16 / 8 := by
  have h0 : (audioToWavBuffer audioData sr).getD 40 0
      = (u32le (audioData.length * 16 / 8)).getD 0 0 := by
    simpa using audioToWavBuffer_getD_dataSize audioData sr 0 (by omega)
  have h1 : (audioToWavBuffer audioData sr).getD 41 0
      = (u32le (audioData.length * 16 / 8)).getD 1 0 := by
    simpa using audioToWavBuffer_getD_dataSize audioData sr 1 (by omega)
  have h2 : (audioToWavBuffer audioData sr).getD 42 0
      = (u32le (audioData.length * 16 / 8)).getD 2 0 := by
    simpa using audioToWavBuffer_getD_dataSize audioData sr 2 (by omega)
  have h3 : (audioToWavBuffer audioData sr).getD 43 0
      = (u32le (audioData.length * 16 / 8)).getD 3 0 := by
    simpa using audioToWavBuffer_getD_dataSize audioData sr 3 (by omega)
  unfold dataSizeField
  rw [h0, h1, h2, h3]
  exact u32le_decode _ h

theorem audioToWavBuffer_length (audioData : List ℚ) (sr : ℕ) :
    (audioToWavBuffer audioData sr).length = 44 + 2 * audioData.length := by
  unfold audioToWavBuffer
  rw [List.length_append, List.length_append, wavHeaderBytes_length,
    u32le_length, sample_flatMap_length]

theorem audioToWavBuffer_getD_data (audioData : List ℚ) (sr k : ℕ) :
    (audioToWavBuffer audioData sr).getD (44 + k) 0
      = (audioData.flatMap (fun s => int16le (sampleToInt s))).getD k 0 := by
  unfold audioToWavBuffer
  have hlen : (wavHeaderBytes (audioData.length * 16 / 8) sr
      ++ u32le (audioData.length * 16 / 8)).length = 44 := by
    rw [List.length_append, wavHeaderBytes_length, u32le_length]
  rw [List.getD_append_right _ _ _ _ (by rw [hlen]; omega), hlen,
    Nat.add_sub_cancel_left]

/-- Claim C9: encoding `n` zero samples yields a buffer of length `44 + 2n`
whose declared data-chunk size (bytes 40-43, little-endian) is `2n`; `n = 0`
gives the 44-byte header-only buffer.  The hypothesis is the implicit runtime
bound under which `buffer.writeUInt32LE` accepts the RIFF/data size fields. -/
theorem c9_wav_length_and_datasize (n : ℕ) (h : 36 + 2 * n < 4294967296) :
    (audioToWavBuffer (List.replicate n 0) 16000).length = 44 + 2 * n ∧
    dataSizeField (audioToWavBuffer (List.replicate n 0) 16000) = 2 * n := by
  have hds : (List.replicate n (0 : ℚ)).length * 16 / 8 = 2 * n := by
    rw [List.length_replicate]; omega
  constructor
  · rw [audioToWavBuffer_length, List.length_replicate]
  · rw [dataSizeField_audioToWavBuffer _ _ (by rw [hds]; omega), hds]

/-- Witness for C9 at `n = 3` and at the header-only case `n = 0`. -/
theorem c9_wav_length_and_datasize_witness :
    (36 + 2 * 3 < 4294967296 ∧
      (audioToWavBuffer (List.replicate 3 0) 16000).length = 44 + 2 * 3 ∧
      dataSizeField (audioToWavBuffer (List.replicate 3 0) 16000) = 2 * 3) ∧
    (36 + 2 * 0 < 4294967296 ∧
      (audioToWavBuffer (List.replicate 0 0) 16000).length = 44 + 2 * 0 ∧
      dataSizeField (audioToWavBuffer (List.replicate 0 0) 16000) = 2 * 0) :=
  ⟨⟨by norm_num, c9_wav_length_and_datasize 3 (by norm_num)⟩,
   ⟨by norm_num, c9_wav_length_and_datasize 0 (by norm_num)⟩⟩

/-- Claim C5 (corrected): the 16-bit little-endian value the encoder writes for
a sample `s` is `⌊clamp(s,-1,1) * 32767⌋` — the scaled sample is floored
(toward negative infinity, `Math.floor`), not rounded to the nearest integer;
out-of-range samples are clamped, never rejected. -/
theorem c5_sample_encoding_floor (s : ℚ) (sr : ℕ) :
    int16FieldAt (audioToWavBuffer [s] sr) 44 = Int.floor (jsClamp s * 32767) := by
  have ha : (audioToWavBuffer [s] sr).getD 44 0
      = (int16le (sampleToInt s)).getD 0 0 := by
    simpa using audioToWavBuffer_getD_data [s] sr 0
  have hb1 : (audioToWavBuffer [s] sr).getD (44 + 1) 0
      = (int16le (sampleToInt s)).getD (0 + 1) 0 := by
    simpa using audioToWavBuffer_getD_data [s] sr 1
  have hb := sampleToInt_bounds s
  have hdec := int16le_decode (sampleToInt s) (by omega) (by omega)
  unfold int16FieldAt
  rw [ha, hb1]
  exact hdec

/-- Claim C2 counterexample: with phrases `["a", "b"]` and an engine failing
on `"a"`, the SSE batch stream is exactly `start`, the index-tagged `error`,
and `end` — nothing for the second phrase is ever emitted, so the orchestrator
does not continue to the next phrase. -/
theorem c2_failure_stops_batch_counterexample :
    streamAudioChunks c2Tts 16000 ["a", "b"]
        = [Ev.start 2, Ev.error "boom" (some 1),
           Ev.endEv (some 0) (some 0)] ∧
    Ev.chunkMeta 2 2 1 16000 ∉ streamAudioChunks c2Tts 16000 ["a", "b"] := by
  decide

/-- Claim C2 (corrected): on engine failure for a phrase, both batch loops
emit an `error` event tagged with that phrase's 1-based index and then
`break`: the events are independent of the remaining phrases (they are never
attempted), and the final `end` event is still emitted (with the totals
accumulated so far on SSE, bare on WebSocket). -/
theorem c2_error_event_then_break (tts : TtsFun) (sr total i : ℕ) (td : ℚ)
    (cc : ℕ) (c : String) (rest rest2 : List String) (e : String)
    (h : tts c = .error e) :
    sseBatchLoop tts sr total (c :: rest) i td cc
        = [Ev.error e (some (i + 1)), Ev.endEv (some td) (some cc)] ∧
    sseBatchLoop tts sr total (c :: rest) i td cc
        = sseBatchLoop tts sr total (c :: rest2) i td cc ∧
    wsSynthLoop tts sr total (c :: rest) i
        = [Ev.error e (some (i + 1)), Ev.endEv none none] ∧
    wsSynthLoop tts sr total (c :: rest) i
        = wsSynthLoop tts sr total (c :: rest2) i := by
  refine ⟨?_, ?_, ?_, ?_⟩ <;> simp [sseBatchLoop, wsSynthLoop, h]

/-- Witness for C2 at the concrete failing engine `c2Tts`. -/
theorem c2_error_event_then_break_witness :
    c2Tts "a" = .error "boom" ∧
    sseBatchLoop c2Tts 16000 2 ["a", "b"] 0 0 0
        = [Ev.error "boom" (some 1), Ev.endEv (some 0) (some 0)] ∧
    wsSynthLoop c2Tts 16000 2 ["a", "b"] 0
        = [Ev.error "boom" (some 1), Ev.endEv none none] :=
  ⟨rfl,
   (c2_error_event_then_break c2Tts 16000 2 0 0 0 "a" ["b"] [] "boom" rfl).1,
   (c2_error_event_then_break c2Tts 16000 2 0 0 0 "a" ["b"] [] "boom" rfl).2.2.1⟩

theorem wsSynthLoop_eq_merge (tts : TtsFun) (sr total : ℕ) :
    ∀ (chunks : List String) (i : ℕ) (td : ℚ) (cc : ℕ),
      wsSynthLoop tts sr total chunks i
        = mergeForWs (sseBatchLoop tts sr total chunks i td cc)
  | [], i, td, cc => by simp [wsSynthLoop, sseBatchLoop, mergeForWs]
  | c :: rest, i, td, cc => by
      cases htts : tts c with
      | error e => simp [wsSynthLoop, sseBatchLoop, htts, mergeForWs]
      | ok p =>
          obtain ⟨wav, dur⟩ := p
          cases rest with
          | nil =>
              simp [wsSynthLoop, sseBatchLoop, htts, mergeForWs]
          | cons c2 rest2 =>
              have ih := wsSynthLoop_eq_merge tts sr total (c2 :: rest2)
                (i + 1) (td + dur + 3/10) (cc + 1)
              simpa [wsSynthLoop, sseBatchLoop, htts, mergeForWs] using ih

/-- Claim C4 counterexample: for the same text (one chunk `"hi"`), the same
engine and the same sample rate, the SSE `/stream` event sequence and the
WebSocket `synthesize` event sequence are not the same: SSE sends a
`chunk`-metadata event followed by a separate `audio` event and an `end` with
totals, the WebSocket path sends one data-carrying `chunk` event and a bare
`end`. -/
theorem c4_sse_ws_not_identical_counterexample :
    streamAudioChunks okTts 10 ["hi"] ≠ wsSynthesize okTts 10 ["hi"] := by
  decide

/-- Claim C4 (corrected): the two transports agree only up to framing — for
every engine, sample rate and chunk list, the WebSocket synthesize stream is
the SSE stream with each per-phrase `chunk`-metadata/`audio` pair merged into
a single data-carrying `chunk` event and the `end` event's
`totalDuration`/`totalChunks` fields dropped; `start`, `silence` and `error`
events coincide. -/
theorem c4_ws_refines_sse_modulo_framing (tts : TtsFun) (sr : ℕ)
    (chunks : List String) :
    wsSynthesize tts sr chunks = mergeForWs (streamAudioChunks tts sr chunks) := by
  unfold wsSynthesize streamAudioChunks
  rw [wsSynthLoop_eq_merge tts sr chunks.length chunks 0 0 0]
  simp [mergeForWs]

theorem sseBatchLoop_total_shape (t : String → List ℚ × ℚ) (sr total : ℕ) :
    ∀ (chunks : List String) (i : ℕ) (td : ℚ) (cc : ℕ),
      sseBatchLoop (liftTts t) sr total chunks i td cc
        = c7Body t sr total chunks i
            ++ [Ev.endEv (some (td + sumDurations t chunks
                    + (3/10) * ((chunks.length - 1 : ℕ) : ℚ)))
                (some (cc + chunks.length))]
  | [], i, td, cc => by
      simp [sseBatchLoop, c7Body, sumDurations]
  | [c], i, td, cc => by
      simp [sseBatchLoop, liftTts, c7Body, sumDurations]
  | c :: c2 :: rest, i, td, cc => by
      have ih := sseBatchLoop_total_shape t sr total (c2 :: rest) (i + 1)
        (td + (t c).2 + 3/10) (cc + 1)
      have harith : td + (t c).2 + 3/10 + sumDurations t (c2 :: rest)
            + (3/10) * (((c2 :: rest).length - 1 : ℕ) : ℚ)
          = td + sumDurations t (c :: c2 :: rest)
            + (3/10) * (((c :: c2 :: rest).length - 1 : ℕ) : ℚ) := by
        simp only [sumDurations, List.map_cons, List.sum_cons,
          List.length_cons, Nat.succ_sub_one]
        push_cast
        ring
      have hcount : cc + 1 + (c2 :: rest).length = cc + (c :: c2 :: rest).length := by
        simp only [List.length_cons]
        omega
      rw [harith, hcount] at ih
      simpa [sseBatchLoop, liftTts, c7Body] using ih

theorem wsSynthLoop_total_shape (t : String → List ℚ × ℚ) (sr total : ℕ) :
    ∀ (chunks : List String) (i : ℕ),
      wsSynthLoop (liftTts t) sr total chunks i
        = c7WsBody t sr total chunks i ++ [Ev.endEv none none]
  | [], i => by simp [wsSynthLoop, c7WsBody]
  | [c], i => by simp [wsSynthLoop, liftTts, c7WsBody]
  | c :: c2 :: rest, i => by
      have ih := wsSynthLoop_total_shape t sr total (c2 :: rest) (i + 1)
      simpa [wsSynthLoop, liftTts, c7WsBody] using ih

/-- Claim C5 counterexample: at sample `-1/2` the encoder writes
`⌊-16383.5⌋ = -16384`, while `round(clamp(-1/2)·32767) = -16383`
(`Math.round` rounds halves toward positive infinity, as does `round` on ℚ),
so the claimed round-to-nearest encoding is false. -/
theorem c5_floor_not_round_counterexample :
    sampleToInt (-(1/2)) ≠ round (jsClamp (-(1/2)) * (32767 : ℚ)) := by
  have hc : jsClamp (-(1/2)) = -(1/2) := by unfold jsClamp; norm_num
  have h1 : sampleToInt (-(1/2)) = -16384 := by
    unfold sampleToInt
    rw [hc]
    norm_num [Int.floor_eq_iff]
  have h2 : round ((-(1/2) : ℚ) * 32767) = -16383 := by
    norm_num [round_eq, Int.floor_eq_iff]
  rw [h1, hc, h2]
  decide

theorem detectPhraseEnd_eq_error (cur : String) :
    detectPhraseEnd cur = .error
      "TypeError: String.prototype.matchAll called with a non-global RegExp argument" :=
  rfl

theorem processFragment_content (tts : TtsFun) (sr : ℕ) (i : String)
    (st : ConvState) (c : String) :
    (processFragment tts sr i st (contentFrag c)).1
      = { st with fullResponse := st.fullResponse ++ c,
                  currentSentence := st.currentSentence ++ c } := by
  by_cases hc : c = ""
  · subst hc
    simp [processFragment, contentFrag, String.append_empty]
  · simp [processFragment, contentFrag, hc, detectPhraseEnd_eq_error]

theorem processFragments_content (tts : TtsFun) (sr : ℕ) (i : String) :
    ∀ (cs : List String) (st : ConvState),
      (processFragments tts sr i st (cs.map contentFrag)).1
        = { st with
            fullResponse := cs.foldl (· ++ ·) st.fullResponse,
            currentSentence := cs.foldl (· ++ ·) st.currentSentence }
  | [], st => by simp [processFragments]
  | c :: cs, st => by
      have ih := processFragments_content tts sr i cs
        { st with fullResponse := st.fullResponse ++ c,
                  currentSentence := st.currentSentence ++ c }
      simp only [List.map_cons, processFragments, processFragment_content, ih,
        List.foldl_cons]

theorem processFragments_fst_append (tts : TtsFun) (sr : ℕ) (i : String) :
    ∀ (l1 l2 : List Fragment) (st : ConvState),
      (processFragments tts sr i st (l1 ++ l2)).1
        = (processFragments tts sr i (processFragments tts sr i st l1).1 l2).1
  | [], l2, st => by simp [processFragments]
  | f :: fs, l2, st => by
      simp only [List.cons_append, processFragments]
      exact processFragments_fst_append tts sr i fs l2
        (processFragment tts sr i st f).1

theorem lookupStore_setStore_self :
    ∀ (s : AList) (i : String) (v : List Message),
      lookupStore (setStore s i v) i = some v
  | [], i, v => by simp [setStore, lookupStore]
  | (k, w) :: rest, i, v => by
      by_cases h : k = i
      · simp [setStore, lookupStore, h]
      · simp [setStore, lookupStore, h, lookupStore_setStore_self rest i v]

theorem processFragment_done_store (tts : TtsFun) (sr : ℕ) (i : String)
    (st : ConvState) (h : st.aliased = false) :
    (processFragment tts sr i st doneFrag).1.store
      = setStore st.store i
          (st.messages ++ [Message.mk "assistant" st.fullResponse]) := by
  simp [processFragment, doneFrag, processDone, pushMessage, h]

theorem streamOllama_stream_store_fresh (U i sys : String) (tts : TtsFun)
    (sr : ℕ) (store : AList) (frags : List Fragment)
    (hfresh : lookupStore store i = none) (hsys : sys ≠ "") :
    (streamOllamaToSpeech U i sys tts sr store (.stream frags)).store
      = (processFragments tts sr i
          ⟨"", "", [Message.mk "system" sys, Message.mk "user" U], store, false⟩
          frags).1.store := by
  simp [streamOllamaToSpeech, hfresh, if_pos hsys]

/-- Claim C8: for a brand-new session id, a completed turn (content fragments
followed by the bare completion marker) leaves the store holding exactly
`[system prompt, user message, assistant full-response]` in that order, and
`GET /conversation/:id` returns exactly that list. -/
theorem c8_session_store_ordering (i U sys : String) (store : AList)
    (tts : TtsFun) (sr : ℕ) (cs : List String)
    (hfresh : lookupStore store i = none) (hsys : sys ≠ "") :
    getConversation
      (streamOllamaToSpeech U i sys tts sr store
        (.stream (cs.map contentFrag ++ [doneFrag]))).store i
      = [Message.mk "system" sys, Message.mk "user" U,
         Message.mk "assistant" (cs.foldl (· ++ ·) "")] := by
  unfold getConversation
  rw [streamOllama_stream_store_fresh U i sys tts sr store _ hfresh hsys,
    processFragments_fst_append, processFragments_content]
  have hdone := processFragment_done_store tts sr i
    { fullResponse := cs.foldl (· ++ ·) "",
      currentSentence := cs.foldl (· ++ ·) "",
      messages := [Message.mk "system" sys, Message.mk "user" U],
      store := store, aliased := false } rfl
  simp only [processFragments] at hdone ⊢
  rw [hdone, lookupStore_setStore_self]
  rfl

/-- Witness for C8: the concrete two-fragment turn of the end-to-end scenario
(fresh store, session `"t1"`, custom system prompt `"S"`). -/
theorem c8_session_store_ordering_witness :
    lookupStore ([] : AList) "t1" = none ∧ ("S" : String) ≠ "" ∧
    getConversation
      (streamOllamaToSpeech "Hi" "t1" "S" stubTts 100 []
        (.stream ([contentFrag "Hello", contentFrag " there."]
          ++ [doneFrag]))).store "t1"
      = [Message.mk "system" "S", Message.mk "user" "Hi",
         Message.mk "assistant" "Hello there."] :=
  ⟨rfl, by decide,
   c8_session_store_ordering "t1" "Hi" "S" [] stubTts 100 ["Hello", " there."]
     rfl (by decide)⟩

theorem processFragment_no_done (tts : TtsFun) (sr : ℕ) (i : String)
    (st : ConvState) (f : Fragment) (h : reachesDone f = false) :
    (processFragment tts sr i st f).1.store = st.store ∧
    (processFragment tts sr i st f).1.aliased = st.aliased := by
  obtain ⟨msg, dn⟩ := f
  cases msg with
  | none =>
      cases dn
      · simp [processFragment]
      · simp [reachesDone] at h
  | some c =>
      by_cases hc : c = ""
      · subst hc
        cases dn
        · simp [processFragment]
        · simp [reachesDone] at h
      · cases dn <;>
          simp [processFragment, hc, detectPhraseEnd_eq_error]

theorem processFragments_no_done (tts : TtsFun) (sr : ℕ) (i : String) :
    ∀ (fs : List Fragment) (st : ConvState),
      (∀ f ∈ fs, reachesDone f = false) →
      (processFragments tts sr i st fs).1.store = st.store ∧
      (processFragments tts sr i st fs).1.aliased = st.aliased
  | [], st, _ => by simp [processFragments]
  | f :: fs, st, h => by
      have h1 := processFragment_no_done tts sr i st f (h f (by simp))
      have h2 := processFragments_no_done tts sr i fs
        (processFragment tts sr i st f).1 (fun g hg => h g (by simp [hg]))
      simp only [processFragments]
      exact ⟨h2.1.trans h1.1, h2.2.trans h1.2⟩

/-- Claim C10: for a fresh conversation id the store acquires an entry only
when a `done` marker is actually processed — a liveness-check failure, an
upstream chat error, or a stream none of whose fragments reaches the `done`
branch leaves the store without that id (and `GET` returns `[]`) — whereas
for an id already present in the store the user message is appended to the
stored history (array aliasing) even when the turn then fails. -/
theorem c10_store_entry_timing :
    (∀ (U i sys : String) (tts : TtsFun) (sr : ℕ) (store : AList),
      lookupStore store i = none →
      lookupStore (streamOllamaToSpeech U i sys tts sr store .ollamaDown).store i
        = none) ∧
    (∀ (U i sys msg : String) (tts : TtsFun) (sr : ℕ) (store : AList),
      lookupStore store i = none →
      lookupStore
        (streamOllamaToSpeech U i sys tts sr store (.chatError msg)).store i
        = none) ∧
    (∀ (U i sys : String) (tts : TtsFun) (sr : ℕ) (store : AList)
        (frags : List Fragment),
      lookupStore store i = none →
      (∀ f ∈ frags, reachesDone f = false) →
      lookupStore
        (streamOllamaToSpeech U i sys tts sr store (.stream frags)).store i
        = none ∧
      getConversation
        (streamOllamaToSpeech U i sys tts sr store (.stream frags)).store i
        = []) ∧
    (∀ (U i sys : String) (tts : TtsFun) (sr : ℕ) (store : AList)
        (msgs : List Message),
      lookupStore store i = some msgs → msgs ≠ [] →
      lookupStore (streamOllamaToSpeech U i sys tts sr store .ollamaDown).store i
        = some (msgs ++ [Message.mk "user" U])) := by
  refine ⟨?_, ?_, ?_, ?_⟩
  · intro U i sys tts sr store hfresh
    simp [streamOllamaToSpeech, hfresh]
  · intro U i sys msg tts sr store hfresh
    simp [streamOllamaToSpeech, hfresh]
  · intro U i sys tts sr store frags hfresh hnd
    have hpres := processFragments_no_done tts sr i frags
      ⟨"", "", (if ([] : List Message).isEmpty
          then [Message.mk "system"
            (if sys ≠ "" then sys else DEFAULT_SYSTEM_PROMPT)] else [])
        ++ [Message.mk "user" U], store, false⟩ hnd
    constructor
    · simp only [streamOllamaToSpeech, hfresh, Option.getD_none,
        Option.isSome_none, Bool.false_eq_true, if_false]
      rw [hpres.1]
      exact hfresh
    · simp only [getConversation, streamOllamaToSpeech, hfresh,
        Option.getD_none, Option.isSome_none, Bool.false_eq_true, if_false]
      rw [hpres.1, hfresh]
      rfl
  · intro U i sys tts sr store msgs hsome hne
    have hne' : msgs.isEmpty = false := by
      cases msgs
      · exact absurd rfl hne
      · rfl
    simp [streamOllamaToSpeech, hsome, hne', lookupStore_setStore_self]

/-- Witness for C10 at concrete stores and streams: a fresh id stays absent
after a liveness failure, a chat error, and a content-only stream; an
existing id gets the user message appended on a failed turn. -/
theorem c10_store_entry_timing_witness :
    lookupStore ([] : AList) "t1" = none ∧
    lookupStore
      (streamOllamaToSpeech "Hi" "t1" "" stubTts 100 [] .ollamaDown).store "t1"
      = none ∧
    lookupStore
      (streamOllamaToSpeech "Hi" "t1" "" stubTts 100 []
        (.chatError "x")).store "t1" = none ∧
    lookupStore
      (streamOllamaToSpeech "Hi" "t1" "" stubTts 100 []
        (.stream [contentFrag "Hello"])).store "t1" = none ∧
    lookupStore
      (streamOllamaToSpeech "Hi" "t1" "" stubTts 100
        [("t1", [Message.mk "system" "S"])] .ollamaDown).store "t1"
      = some [Message.mk "system" "S", Message.mk "user" "Hi"] := by
  refine ⟨rfl, ?_, ?_, ?_, ?_⟩
  · exact c10_store_entry_timing.1 "Hi" "t1" "" stubTts 100 [] rfl
  · exact c10_store_entry_timing.2.1 "Hi" "t1" "" "x" stubTts 100 [] rfl
  · exact (c10_store_entry_timing.2.2.1 "Hi" "t1" "" stubTts 100 []
      [contentFrag "Hello"] rfl (by decide)).1
  · exact c10_store_entry_timing.2.2.2 "Hi" "t1" "" stubTts 100
      [("t1", [Message.mk "system" "S"])] [Message.mk "system" "S"] rfl
      (by decide)

/-- Claim C3 (code bug): on the exact stub stream of the end-to-end scenario
the code emits only `ConversationStart` and the two `TextChunk`s, then closes
the stream: the phrase-detection `matchAll` `TypeError` is swallowed by the
malformed-line catch on every content-bearing line, so no `Audio` event is
produced and — because the `done` marker rides a content-bearing fragment —
the `done` branch is skipped: no `ConversationEnd`, no store update (and no
`end`-typed event exists in conversation mode at all). -/
theorem c3_conversation_stub_behavior :
    c3Run.events
      = [Ev.conversationStart "t1",
         Ev.textChunk "Hello" "Hello",
         Ev.textChunk " there." "Hello there."] ∧
    lookupStore c3Run.store "t1" = none := by
  refine ⟨?_, ?_⟩ <;> decide

/-- Claim C1 counterexample: feeding `"Hello world. This is great!"` to the
incremental detector in one single feed call does not yield the two phrases
`"Hello world."` and `"This is great!"` — it yields no phrase at all. -/
theorem c1_single_feed_counterexample :
    audioTexts (detectorRun ["Hello world. This is great!"]).2
      ≠ ["Hello world.", "This is great!"] := by
  decide

/-- Claim C1 (corrected): both the single full-text feed and the 28
single-character feeds of `"Hello world. This is great!"` emit no phrase at
all — the boundary cascade always dies in the swallowed `matchAll`
`TypeError` — so the two feed patterns produce identical (empty) phrase
sequences, but never the claimed two phrases. -/
theorem c1_detector_feeds_emit_no_phrases :
    audioTexts (detectorRun ["Hello world. This is great!"]).2 = [] ∧
    audioTexts (detectorRun (singleCharFeeds "Hello world. This is great!")).2
      = [] ∧
    audioTexts (detectorRun ["Hello world. This is great!"]).2
      = audioTexts
          (detectorRun (singleCharFeeds "Hello world. This is great!")).2 := by
  refine ⟨?_, ?_, ?_⟩ <;> decide

/-- Claim C6 (code bug): on the 85-character run-on input whose only space is
at position 40 the detector produces no cut at all — neither at 40 nor at 80:
every feed dies in the swallowed `matchAll` `TypeError`, and the whole input
stays in the pending buffer. -/
theorem c6_forced_cut_never_happens :
    audioTexts (detectorRun [text85]).2 = [] ∧
    audioTexts (detectorRun (singleCharFeeds text85)).2 = [] ∧
    (detectorRun [text85]).1.currentSentence = text85 := by
  refine ⟨?_, ?_, ?_⟩ <;> decide

theorem silenceCountEv_append (l1 l2 : List Ev) :
    silenceCountEv (l1 ++ l2) = silenceCountEv l1 + silenceCountEv l2 := by
  simp [silenceCountEv, List.filter_append]

theorem silenceCountEv_cons (e : Ev) (l : List Ev) (h : isSilenceEv e = false) :
    silenceCountEv (e :: l) = silenceCountEv l := by
  simp [silenceCountEv, List.filter_cons, h]

theorem processDone_silence_count (tts : TtsFun) (sr : ℕ) (i : String)
    (st : ConvState) :
    silenceCountEv (processDone tts sr i st).2 = 0 := by
  unfold processDone
  by_cases h : jsTrim st.currentSentence = ""
  · simp [h, silenceCountEv, isSilenceEv]
  · cases htts : tts (jsTrim st.currentSentence) with
    | ok p =>
        obtain ⟨w, d⟩ := p
        simp [h, htts, silenceCountEv, isSilenceEv]
    | error e =>
        simp [h, htts, silenceCountEv, isSilenceEv]

theorem processFragment_silence_count (tts : TtsFun) (sr : ℕ) (i : String)
    (st : ConvState) (f : Fragment) :
    silenceCountEv (processFragment tts sr i st f).2 = 0 := by
  obtain ⟨msg, dn⟩ := f
  cases msg with
  | none =>
      cases dn
      · simp [processFragment, silenceCountEv]
      · simp [processFragment, processDone_silence_count]
  | some c =>
      by_cases hc : c = ""
      · subst hc
        cases dn
        · simp [processFragment, silenceCountEv]
        · simp [processFragment, processDone_silence_count]
      · cases dn <;>
          simp [processFragment, hc, detectPhraseEnd_eq_error, silenceCountEv,
            isSilenceEv]

theorem processFragments_silence_count (tts : TtsFun) (sr : ℕ) (i : String) :
    ∀ (fs : List Fragment) (st : ConvState),
      silenceCountEv (processFragments tts sr i st fs).2 = 0
  | [], st => by simp [processFragments, silenceCountEv]
  | f :: fs, st => by
      simp [processFragments, silenceCountEv_append,
        processFragment_silence_count,
        processFragments_silence_count tts sr i fs
          (processFragment tts sr i st f).1]

/-- Claim C7 (corrected): in batch mode, with a never-failing engine, a fixed
0.3 s `silence` event sits between every pair of consecutive phrases and none
follows the last phrase, on both transports; the SSE `end` event carries
`totalDuration` = the sum of the phrase durations plus 0.3 per inserted
silence, while the WebSocket synthesize `end` event carries no
`totalDuration`/`totalChunks` at all; conversational mode emits no `silence`
event whatsoever. -/
theorem c7_silence_placement :
    (∀ (t : String → List ℚ × ℚ) (sr : ℕ) (chunks : List String),
      streamAudioChunks (liftTts t) sr chunks
        = Ev.start chunks.length
            :: (c7Body t sr chunks.length chunks 0
              ++ [Ev.endEv (some (sumDurations t chunks
                      + (3/10) * ((chunks.length - 1 : ℕ) : ℚ)))
                  (some chunks.length)])) ∧
    (∀ (t : String → List ℚ × ℚ) (sr : ℕ) (chunks : List String),
      wsSynthesize (liftTts t) sr chunks
        = Ev.start chunks.length
            :: (c7WsBody t sr chunks.length chunks 0 ++ [Ev.endEv none none])) ∧
    (∀ (U i sys : String) (tts : TtsFun) (sr : ℕ) (store : AList)
        (up : Upstream),
      silenceCountEv (streamOllamaToSpeech U i sys tts sr store up).events
        = 0) := by
  refine ⟨?_, ?_, ?_⟩
  · intro t sr chunks
    unfold streamAudioChunks
    rw [sseBatchLoop_total_shape t sr chunks.length chunks 0 0 0]
    simp
  · intro t sr chunks
    unfold wsSynthesize
    rw [wsSynthLoop_total_shape t sr chunks.length chunks 0]
  · intro U i sys tts sr store up
    cases up with
    | ollamaDown => simp [streamOllamaToSpeech, silenceCountEv, isSilenceEv]
    | chatError m => simp [streamOllamaToSpeech, silenceCountEv, isSilenceEv]
    | stream frags =>
        simp only [streamOllamaToSpeech]
        rw [silenceCountEv_cons (Ev.conversationStart i) _ (by rfl)]
        exact processFragments_silence_count tts sr i frags _

/-- Claim C7 counterexample: a successful two-phrase WebSocket synthesize run
inserts exactly one `silence` event, yet its `end` event carries no
`totalDuration` field for the silence to contribute to. -/
theorem c7_ws_end_lacks_totalDuration_counterexample :
    silenceCountEv (wsSynthesize okTts 10 ["a!", "b!"]) = 1 ∧
    wsSynthesize okTts 10 ["a!", "b!"]
      = [Ev.start 2,
         Ev.chunkData 1 2 1 10 (synthBytes 10 [0] 1),
         Ev.silence (3/10) (silenceBytes 10),
         Ev.chunkData 2 2 1 10 (synthBytes 10 [0] 1),
         Ev.endEv none none] := by
  refine ⟨?_, ?_⟩ <;>
    simp [wsSynthesize, wsSynthLoop, okTts, silenceCountEv, isSilenceEv,
      List.filter]

end Supertonic
